import Mathlib

/-!
Verification of the Share_Market_Analysis repository core:
the indicator computation engine (`add_features` in
`share_data_preprocessing.py`) and the signal-detection rule engine
(`analyze_signals` in `share_market_trend_indicator.py`).

Prices are modelled as rationals (the source works with 2-decimal floats;
no claim depends on float rounding).  A pandas column value that can be
NaN (an indicator with insufficient history) is modelled as `Option ℚ`
with `none` for NaN; pandas comparisons on NaN are `False`, which the
boolean comparison helpers below reproduce.  The final `.round(2)` of the
derived columns (lines 71-72 of the source) is omitted: every claim cites
the computation on lines 62-66, before rounding.  The derived columns
`Daily_Return` and `Volatility_20` (lines 67-68) are not modelled: no
claim constrains them and `Volatility_20` needs a real square root.
-/

/-- One input price bar, the row of the cleaned data frame that
`add_features` receives.  Dates are calendar days as integers. -/
structure Bar where
  Date : Int
  Open : ℚ
  High : ℚ
  Low : ℚ
  Close : ℚ
  Volume : Int
deriving DecidableEq

/-- A bar enriched with the derived indicator columns that the claims
reference (`data['SMA_20']`, `data['SMA_50']`, `data['SMA_200']`,
`data['RSI_14']`); `none` models a NaN cell. -/
structure EnrichedBar where
  Date : Int
  Open : ℚ
  High : ℚ
  Low : ℚ
  Close : ℚ
  Volume : Int
  SMA_20 : Option ℚ
  SMA_50 : Option ℚ
  SMA_200 : Option ℚ
  RSI_14 : Option ℚ
deriving DecidableEq

/-- `data['Close']` as a list. -/
def closes (bars : List Bar) : List ℚ := bars.map (fun b => b.Close)

/-- `series.rolling(window=n).mean()` at position `i`: the mean of the
`n` entries ending at `i`, NaN (`none`) while fewer than `n` entries
have been observed.  This is the SMA computation of source lines 62-64. -/
def rollingMean (n : ℕ) (xs : List ℚ) (i : ℕ) : Option ℚ :=
  if n ≤ i + 1 ∧ i < xs.length then
    some (((xs.take (i + 1)).drop (i + 1 - n)).sum / n)
  else none

/-- `data['Close'].diff(1)` without its leading NaN:
`deltas xs` has `xs[j+1] - xs[j]` at index `j`. -/
def deltas (xs : List ℚ) : List ℚ :=
  List.zipWith (fun a b => a - b) (xs.drop 1) xs

/-- `lambda x: max(x, 0)` of source line 65. -/
def gainPart (x : ℚ) : ℚ := max x 0

/-- `max(-x, 0)`, the loss magnitude used by the specification's
gain/loss split (the source itself uses `abs`). -/
def lossPart (x : ℚ) : ℚ := max (-x) 0

/-- The 14 deltas ending at bar `i`, i.e. deltas at indices
`i-14 … i-1`; meaningful when `14 ≤ i ≤ xs.length - 1`. -/
def rsiWindow (xs : List ℚ) (i : ℕ) : List ℚ :=
  ((deltas xs).take i).drop (i - 14)

/-- Rolling mean of `max(delta, 0)` over the 14 deltas ending at bar
`i` — the numerator series of source line 65. -/
def avgGain (xs : List ℚ) (i : ℕ) : ℚ :=
  ((rsiWindow xs i).map gainPart).sum / 14

/-- Rolling mean of `abs(delta)` over the 14 deltas ending at bar `i`
— the denominator series of source line 66. -/
def avgAbs (xs : List ℚ) (i : ℕ) : ℚ :=
  ((rsiWindow xs i).map (fun x => |x|)).sum / 14

/-- Rolling mean of `max(-delta, 0)` (mean loss), the denominator the
specification describes.  Defined for comparison with `avgAbs`. -/
def avgLoss (xs : List ℚ) (i : ℕ) : ℚ :=
  ((rsiWindow xs i).map lossPart).sum / 14

/-- `RSI_14` of source lines 65-66:
`100 - 100 / (1 + rolling14mean(max(diff,0)) / rolling14mean(abs(diff)))`.
The value is NaN (`none`) until 14 deltas exist (`i < 14`), and NaN when
the mean absolute delta is zero (a flat window makes the ratio `0/0`,
NaN in floating point). -/
def rsi14 (xs : List ℚ) (i : ℕ) : Option ℚ :=
  if 14 ≤ i ∧ i < xs.length then
    if avgAbs xs i = 0 then none
    else some (100 - 100 / (1 + avgGain xs i / avgAbs xs i))
  else none

/-- Build one enriched row from a bar at position `i`. -/
def enrich (cs : List ℚ) (i : ℕ) (b : Bar) : EnrichedBar :=
  ⟨b.Date, b.Open, b.High, b.Low, b.Close, b.Volume,
   rollingMean 20 cs i, rollingMean 50 cs i, rollingMean 200 cs i,
   rsi14 cs i⟩

/-- Index-carrying worker for `add_features`. -/
def addFeaturesAux (cs : List ℚ) : ℕ → List Bar → List EnrichedBar
  | _, [] => []
  | i, b :: t => enrich cs i b :: addFeaturesAux cs (i + 1) t

/-- `add_features` (source lines 60-74): add the indicator columns to the
data frame, row for row.  The source mutates the frame in place and
raises nothing; the embedding returns the enriched rows. -/
def add_features (bars : List Bar) : List EnrichedBar :=
  addFeaturesAux (closes bars) 0 bars

/-- Summing an initial segment of a list is the sum of its entries by
index (`getD` with default 0). -/
lemma sum_take_getD (ys : List ℚ) :
    ∀ m, m ≤ ys.length → (ys.take m).sum = ∑ j ∈ Finset.range m, ys.getD j 0 := by
  intro m
  induction m with
  | zero => simp
  | succ k ih =>
    intro h
    have hk : k < ys.length := h
    rw [List.take_succ, List.sum_append, ih (Nat.le_of_succ_le h),
      Finset.sum_range_succ, List.getElem?_eq_getElem hk]
    simp [List.getD_eq_getElem?_getD, List.getElem?_eq_getElem hk]

/-- Indexing into a dropped list shifts the index. -/
lemma getD_drop (xs : List ℚ) (k j : ℕ) :
    (xs.drop k).getD j 0 = xs.getD (k + j) 0 := by
  rw [List.getD_eq_getElem?_getD, List.getElem?_drop, ← List.getD_eq_getElem?_getD]

/-- C7: for every window size `n > 0` (in particular 20, 50 and 200) and
every close series, `SMA(n)` at position `i` is undefined for
`i < n − 1`, and at every position `n − 1 ≤ i < length` it equals the
arithmetic mean of the closes at positions `i − n + 1 … i`. -/
theorem sma_is_trailing_mean (n : ℕ) (xs : List ℚ) (i : ℕ) (hn : 0 < n) :
    (i + 1 < n → rollingMean n xs i = none) ∧
    (n ≤ i + 1 → i < xs.length →
      rollingMean n xs i =
        some ((∑ j ∈ Finset.range n, xs.getD (i + 1 - n + j) 0) / n)) := by
  constructor
  · intro h
    rw [rollingMean, if_neg]
    rintro ⟨h1, _⟩
    omega
  · intro h1 h2
    rw [rollingMean, if_pos ⟨h1, h2⟩]
    have hcomm : (xs.take (i + 1)).drop (i + 1 - n) =
        (xs.drop (i + 1 - n)).take n := by
      rw [List.drop_take]
      congr 1
      omega
    have hlen : n ≤ (xs.drop (i + 1 - n)).length := by
      rw [List.length_drop]
      omega
    have hsum : ∑ j ∈ Finset.range n, (xs.drop (i + 1 - n)).getD j 0 =
        ∑ j ∈ Finset.range n, xs.getD (i + 1 - n + j) 0 :=
      Finset.sum_congr rfl (fun j _ => getD_drop xs (i + 1 - n) j)
    rw [hcomm, sum_take_getD _ n hlen, hsum]

/-- Witness for C7: `SMA(2)` of the closes `[10, 20, 30]` at the last
bar is the mean of the last two closes, namely 25. -/
theorem sma_is_trailing_mean_witness :
    rollingMean 2 [(10 : ℚ), 20, 30] 2 =
      some ((∑ j ∈ Finset.range 2, ([(10 : ℚ), 20, 30]).getD (2 + 1 - 2 + j) 0) / 2) ∧
    rollingMean 2 [(10 : ℚ), 20, 30] 2 = some 25 :=
  ⟨(sma_is_trailing_mean 2 [(10 : ℚ), 20, 30] 2 (by norm_num)).2 (by norm_num)
      (by norm_num),
   by norm_num [rollingMean]⟩

/-- An absolute delta splits into gain plus loss magnitude. -/
lemma abs_eq_gainPart_add_lossPart (x : ℚ) : |x| = gainPart x + lossPart x := by
  rcases le_total 0 x with h | h
  · rw [abs_of_nonneg h, gainPart, lossPart, max_eq_left h,
      max_eq_right (neg_nonpos.mpr h), add_zero]
  · rw [abs_of_nonpos h, gainPart, lossPart, max_eq_right h,
      max_eq_left (neg_nonneg.mpr h), zero_add]

/-- The sum of absolute deltas is the sum of gains plus the sum of
loss magnitudes. -/
lemma sum_map_abs_split (w : List ℚ) :
    (w.map (fun x => |x|)).sum = (w.map gainPart).sum + (w.map lossPart).sum := by
  induction w with
  | nil => simp
  | cons a t ih =>
    rw [List.map_cons, List.map_cons, List.map_cons, List.sum_cons,
      List.sum_cons, List.sum_cons, ih, abs_eq_gainPart_add_lossPart]
    ring

/-- The code's denominator (mean absolute delta) is the mean gain plus
the mean loss, not the mean loss alone. -/
lemma avgAbs_eq_avgGain_add_avgLoss (xs : List ℚ) (i : ℕ) :
    avgAbs xs i = avgGain xs i + avgLoss xs i := by
  rw [avgAbs, avgGain, avgLoss, sum_map_abs_split, add_div]

lemma gainPart_nonneg (x : ℚ) : 0 ≤ gainPart x := le_max_right x 0

lemma lossPart_nonneg (x : ℚ) : 0 ≤ lossPart x := le_max_right (-x) 0

lemma avgGain_nonneg (xs : List ℚ) (i : ℕ) : 0 ≤ avgGain xs i := by
  refine div_nonneg (List.sum_nonneg ?_) (by norm_num)
  intro y hy
  obtain ⟨x, _, rfl⟩ := List.mem_map.mp hy
  exact gainPart_nonneg x

lemma avgAbs_nonneg (xs : List ℚ) (i : ℕ) : 0 ≤ avgAbs xs i := by
  refine div_nonneg (List.sum_nonneg ?_) (by norm_num)
  intro y hy
  obtain ⟨x, _, rfl⟩ := List.mem_map.mp hy
  exact abs_nonneg x

/-- C1 (amended): at every defined position, `RSI_14` equals
`100 − 100 / (1 + avg_gain / (avg_gain + avg_loss))` — the code's
`abs(delta)` denominator is the mean of gain **plus** loss, not the
mean loss of the gain/loss split. -/
theorem rsi14_uses_gain_plus_loss_denominator (xs : List ℚ) (i : ℕ) (r : ℚ)
    (h : rsi14 xs i = some r) :
    r = 100 - 100 / (1 + avgGain xs i / (avgGain xs i + avgLoss xs i)) := by
  rw [rsi14] at h
  by_cases hdef : 14 ≤ i ∧ i < xs.length
  · rw [if_pos hdef] at h
    by_cases hz : avgAbs xs i = 0
    · rw [if_pos hz] at h
      exact Option.noConfusion h
    · rw [if_neg hz, Option.some_inj] at h
      rw [← h, avgAbs_eq_avgGain_add_avgLoss]
  · rw [if_neg hdef] at h
    exact Option.noConfusion h

/-- The close series 10, 11, …, 23, 22: thirteen unit gains followed by
one unit loss. -/
def cs15 : List ℚ := [10, 11, 12, 13, 14, 15, 16, 17, 18, 19, 20, 21, 22, 23, 22]

/-- Witness for C1 (amended): on `cs15` at position 14 the hypotheses
hold and the amended formula evaluates. -/
theorem rsi14_uses_gain_plus_loss_denominator_witness :
    (1300 / 27 : ℚ) =
      100 - 100 / (1 + avgGain cs15 14 / (avgGain cs15 14 + avgLoss cs15 14)) :=
  rsi14_uses_gain_plus_loss_denominator cs15 14 (1300 / 27)
    (by norm_num [rsi14, avgGain, avgAbs, rsiWindow, deltas, gainPart, cs15])

/-- Counterexample to C1 as stated: on `cs15` (avg gain 13/14, avg loss
1/14) the code yields RSI = 1300/27 ≈ 48.15, while the claimed formula
`100 − 100 / (1 + avg_gain/avg_loss)` yields 650/7 ≈ 92.86. -/
theorem rsi14_gain_loss_formula_counterexample :
    rsi14 cs15 14 = some (1300 / 27) ∧
    avgGain cs15 14 = 13 / 14 ∧
    avgLoss cs15 14 = 1 / 14 ∧
    (1300 / 27 : ℚ) ≠ 100 - 100 / (1 + avgGain cs15 14 / avgLoss cs15 14) := by
  refine ⟨by norm_num [rsi14, avgGain, avgAbs, rsiWindow, deltas, gainPart, cs15],
    by norm_num [avgGain, rsiWindow, deltas, gainPart, cs15],
    by norm_num [avgLoss, rsiWindow, deltas, lossPart, cs15], ?_⟩
  rw [show avgGain cs15 14 = 13 / 14 by
        norm_num [avgGain, rsiWindow, deltas, gainPart, cs15],
      show avgLoss cs15 14 = 1 / 14 by
        norm_num [avgLoss, rsiWindow, deltas, lossPart, cs15]]
  norm_num

/-- C9: `RSI_14` lies in `[0, 100]` at every position where it is
defined (in fact the code's values lie in `[0, 50]`, a fortiori). -/
theorem rsi14_mem_zero_hundred (xs : List ℚ) (i : ℕ) (r : ℚ)
    (h : rsi14 xs i = some r) : 0 ≤ r ∧ r ≤ 100 := by
  rw [rsi14] at h
  by_cases hdef : 14 ≤ i ∧ i < xs.length
  · rw [if_pos hdef] at h
    by_cases hz : avgAbs xs i = 0
    · rw [if_pos hz] at h
      exact Option.noConfusion h
    · rw [if_neg hz, Option.some_inj] at h
      have ha : 0 < avgAbs xs i := lt_of_le_of_ne (avgAbs_nonneg xs i) (Ne.symm hz)
      have hq : 0 ≤ avgGain xs i / avgAbs xs i :=
        div_nonneg (avgGain_nonneg xs i) ha.le
      have h1 : (1 : ℚ) ≤ 1 + avgGain xs i / avgAbs xs i := by linarith
      have h2 : 100 / (1 + avgGain xs i / avgAbs xs i) ≤ 100 :=
        div_le_self (by norm_num) h1
      have h3 : 0 < 100 / (1 + avgGain xs i / avgAbs xs i) :=
        div_pos (by norm_num) (by linarith)
      constructor
      · rw [← h]
        linarith
      · rw [← h]
        linarith
  · rw [if_neg hdef] at h
    exact Option.noConfusion h

/-- Witness for C9: the defined value 1300/27 on `cs15` is in range. -/
theorem rsi14_mem_zero_hundred_witness :
    0 ≤ (1300 / 27 : ℚ) ∧ (1300 / 27 : ℚ) ≤ 100 :=
  rsi14_mem_zero_hundred cs15 14 (1300 / 27)
    (by norm_num [rsi14, avgGain, avgAbs, rsiWindow, deltas, gainPart, cs15])

/-- Unfolding `deltas` on two leading elements. -/
lemma deltas_cons_cons (a b : ℚ) (t : List ℚ) :
    deltas (a :: b :: t) = (b - a) :: deltas (b :: t) := rfl

/-- On a strictly increasing series every delta is positive. -/
lemma deltas_pos : ∀ (xs : List ℚ), List.Chain' (fun a b => a < b) xs →
    ∀ d ∈ deltas xs, 0 < d
  | [], _, d, hd => by simp [deltas] at hd
  | [a], _, d, hd => by simp [deltas] at hd
  | a :: b :: t, h, d, hd => by
    rw [deltas_cons_cons] at hd
    rw [List.chain'_cons] at h
    rcases List.mem_cons.mp hd with rfl | hmem
    · have := h.1
      linarith
    · exact deltas_pos (b :: t) h.2 d hmem

/-- C5 (amended): on a strictly increasing close series, `RSI_14` equals
50 at every position where it is defined — all 14 deltas are gains, so
the code's `abs(delta)` denominator equals the gain mean and the ratio
is 1, giving `100 − 100/2 = 50` (not 100). -/
theorem rsi14_fifty_on_increasing (xs : List ℚ)
    (hx : List.Chain' (fun a b => a < b) xs) (i : ℕ) (r : ℚ)
    (h : rsi14 xs i = some r) : r = 50 := by
  rw [rsi14] at h
  by_cases hdef : 14 ≤ i ∧ i < xs.length
  · rw [if_pos hdef] at h
    by_cases hz : avgAbs xs i = 0
    · rw [if_pos hz] at h
      exact Option.noConfusion h
    · rw [if_neg hz, Option.some_inj] at h
      have hpos : ∀ d ∈ rsiWindow xs i, 0 < d := by
        intro d hd
        refine deltas_pos xs hx d ?_
        exact List.take_subset i (deltas xs) (List.drop_subset (i - 14) _ hd)
      have hcongr : (rsiWindow xs i).map gainPart =
          (rsiWindow xs i).map (fun x => |x|) := by
        refine List.map_congr_left ?_
        intro d hd
        rw [gainPart, max_eq_left (hpos d hd).le, abs_of_pos (hpos d hd)]
      have hga : avgGain xs i = avgAbs xs i := by
        rw [avgGain, avgAbs, hcongr]
      rw [← h, hga, div_self hz]
      norm_num
  · rw [if_neg hdef] at h
    exact Option.noConfusion h

/-- The strictly increasing close series 1, 2, …, 15. -/
def csInc : List ℚ := [1, 2, 3, 4, 5, 6, 7, 8, 9, 10, 11, 12, 13, 14, 15]

/-- Witness for C5 (amended): `csInc` is strictly increasing, `RSI_14`
is defined at position 14 with value 50, and the theorem applies. -/
theorem rsi14_fifty_on_increasing_witness :
    List.Chain' (fun a b => a < b) csInc ∧
    rsi14 csInc 14 = some 50 ∧ (50 : ℚ) = 50 := by
  have hchain : List.Chain' (fun a b => a < b) csInc := by
    norm_num [csInc, List.chain'_cons]
  have hval : rsi14 csInc 14 = some 50 := by
    norm_num [rsi14, avgGain, avgAbs, rsiWindow, deltas, gainPart, csInc]
  exact ⟨hchain, hval, rsi14_fifty_on_increasing csInc hchain 14 50 hval⟩

/-- Counterexample to C5 as stated: `csInc` is a strictly increasing
close series of length 15, `RSI_14` is defined at position 14, and its
value is 50, not 100 — the `abs` denominator makes the gain/abs ratio 1
on an all-gain window. -/
theorem rsi14_not_hundred_on_increasing_counterexample :
    List.Chain' (fun a b => a < b) csInc ∧ csInc.length = 15 ∧
    rsi14 csInc 14 = some 50 ∧ rsi14 csInc 14 ≠ some 100 := by
  refine ⟨by norm_num [csInc, List.chain'_cons], by norm_num [csInc], ?_, ?_⟩
  · norm_num [rsi14, avgGain, avgAbs, rsiWindow, deltas, gainPart, csInc]
  · norm_num [rsi14, avgGain, avgAbs, rsiWindow, deltas, gainPart, csInc]

/-- One row of the processed CSV as `analyze_signals` reads it: the
columns it requires (source line 44).  `Close` is always present in
processed data; the indicator columns may be NaN (`none`). -/
structure Row where
  Date : Int
  Close : ℚ
  SMA_20 : Option ℚ
  SMA_50 : Option ℚ
  RSI_14 : Option ℚ
deriving DecidableEq

/-- One output row of the signals frame: the appended columns
`Buy_Signal`, `Sell_Signal` and `Reason` (source lines 57-59). -/
structure SignalRow where
  Date : Int
  Close : ℚ
  Buy_Signal : String
  Sell_Signal : String
  Reason : String
deriving DecidableEq

/-- Pandas `<` on nullable values: any comparison with NaN is False. -/
def optLt : Option ℚ → Option ℚ → Bool
  | some a, some b => decide (a < b)
  | _, _ => false

/-- Pandas `>` on nullable values. -/
def optGt (a b : Option ℚ) : Bool := optLt b a

lemma optLt_none_left (b : Option ℚ) : optLt none b = false := by
  cases b <;> rfl

lemma optLt_none_right (a : Option ℚ) : optLt a none = false := by
  cases a <;> rfl

lemma optLt_some_some (a b : ℚ) : optLt (some a) (some b) = decide (a < b) := rfl

lemma optLt_eq_true_iff (a b : Option ℚ) :
    optLt a b = true ↔ ∃ x y, a = some x ∧ b = some y ∧ x < y := by
  cases a <;> cases b <;> simp [optLt]

/-- A column value at row `i` (no shift). -/
def col (get : Row → Option ℚ) (rows : List Row) (i : ℕ) : Option ℚ :=
  (rows[i]?).bind get

/-- `series.shift(1)` at row `i`: the value on the immediately
preceding row of the same frame, NaN at the first row. -/
def shift1 (get : Row → Option ℚ) (rows : List Row) (i : ℕ) : Option ℚ :=
  match i with
  | 0 => none
  | j + 1 => col get rows j

/-- Source line 61: `(RSI_14 < 30) & (Close > SMA_20)`. -/
def buy_condition (rows : List Row) (i : ℕ) : Bool :=
  optLt (col (fun r => r.RSI_14) rows i) (some 30) &&
  optGt (col (fun r => some r.Close) rows i) (col (fun r => r.SMA_20) rows i)

/-- Source line 62: `(RSI_14 > 70) & (Close < SMA_20)`. -/
def sell_condition (rows : List Row) (i : ℕ) : Bool :=
  optGt (col (fun r => r.RSI_14) rows i) (some 70) &&
  optLt (col (fun r => some r.Close) rows i) (col (fun r => r.SMA_20) rows i)

/-- Source line 63:
`(SMA_20.shift(1) < SMA_50.shift(1)) & (SMA_20 > SMA_50)`. -/
def bullish_crossover (rows : List Row) (i : ℕ) : Bool :=
  optLt (shift1 (fun r => r.SMA_20) rows i) (shift1 (fun r => r.SMA_50) rows i) &&
  optGt (col (fun r => r.SMA_20) rows i) (col (fun r => r.SMA_50) rows i)

/-- Source line 64:
`(SMA_20.shift(1) > SMA_50.shift(1)) & (SMA_20 < SMA_50)`. -/
def bearish_crossover (rows : List Row) (i : ℕ) : Bool :=
  optGt (shift1 (fun r => r.SMA_20) rows i) (shift1 (fun r => r.SMA_50) rows i) &&
  optLt (col (fun r => r.SMA_20) rows i) (col (fun r => r.SMA_50) rows i)

def buyReason : String := "RSI_14 below 30 and Close crossed above SMA_20"

def sellReason : String := "RSI_14 above 70 and Close dropped below SMA_20"

def bullReason : String := "SMA_20 crossed above SMA_50 (Bullish Crossover)"

def bearReason : String := "SMA_20 crossed below SMA_50 (Bearish Crossover)"

/-- The `Reason` cell of row `i`: the four `.loc[..., "Reason"] = ...`
assignments of source lines 67, 70, 73 and 76 applied in order, each
overwriting the single shared column where its condition holds. -/
def rowReason (rows : List Row) (i : ℕ) : String :=
  let s1 := if buy_condition rows i then buyReason else ""
  let s2 := if sell_condition rows i then sellReason else s1
  let s3 := if bullish_crossover rows i then bullReason else s2
  if bearish_crossover rows i then bearReason else s3

/-- The appended cells of row `i` (source lines 57-76): `Buy_Signal` is
"Buy" where the buy or bullish condition holds, `Sell_Signal` is "Sell"
where the sell or bearish condition holds. -/
def evalRow (rows : List Row) (i : ℕ) (r : Row) : SignalRow :=
  ⟨r.Date, r.Close,
   if buy_condition rows i || bullish_crossover rows i then "Buy" else "",
   if sell_condition rows i || bearish_crossover rows i then "Sell" else "",
   rowReason rows i⟩

/-- Walk the frame keeping the rows where a signal appears
(source line 79). -/
def signalsAux (rows : List Row) : ℕ → List Row → List SignalRow
  | _, [] => []
  | i, r :: t =>
    if (evalRow rows i r).Buy_Signal = "Buy" ∨
        (evalRow rows i r).Sell_Signal = "Sell" then
      evalRow rows i r :: signalsAux rows (i + 1) t
    else signalsAux rows (i + 1) t

/-- All signal rows of a frame. -/
def signalsOf (rows : List Row) : List SignalRow := signalsAux rows 0 rows

/-- Source line 54: `data = data[data["Date"] >= last_10_days]` — keep
the bars dated on or after the cutoff. -/
def filterWindow (cutoff : Int) (rows : List Row) : List Row :=
  rows.filter (fun r => decide (cutoff ≤ r.Date))

/-- `analyze_signals` (source lines 37-96), restricted to its signal
logic: filter to the trailing window first, then detect signals on the
filtered frame.  `cutoff` models `datetime.now() - timedelta(days=10)`. -/
def analyze_signals (cutoff : Int) (rows : List Row) : List SignalRow :=
  signalsOf (filterWindow cutoff rows)

/-- The alternative order the claim describes: detect signals on the
full series, then filter by date. -/
def detectThenFilter (cutoff : Int) (rows : List Row) : List SignalRow :=
  (signalsOf rows).filter (fun s => decide (cutoff ≤ s.Date))

/-- C2 (amended): the detector filters to the trailing window first and
computes `shift(1)` on the filtered frame, so crossover rules use the
preceding bar *within* the window; in particular the first bar of the
window has no lookback and never fires a crossover, and the firing set
can therefore differ from detect-on-full-series-then-filter-by-date. -/
theorem crossover_lookback_inside_window (cutoff : Int) (rows : List Row) :
    bullish_crossover (filterWindow cutoff rows) 0 = false ∧
    bearish_crossover (filterWindow cutoff rows) 0 = false := by
  constructor <;>
    simp [bullish_crossover, bearish_crossover, shift1, optGt,
      optLt_none_left, optLt_none_right]

/-- A frame whose only crossover happens exactly at the window
boundary: the pre-window bar has SMA_20 below SMA_50 and the in-window
bar has SMA_20 above SMA_50. -/
def rowsC2 : List Row :=
  [⟨0, 1, some 1, some 2, none⟩, ⟨100, 1, some 3, some 2, none⟩]

/-- Counterexample to C2 as stated: on `rowsC2` with cutoff 50 the code
(filter, then detect) emits no signal, while detecting on the full
series and then filtering by date emits the bullish crossover at date
100 — the firing sets differ. -/
theorem window_boundary_crossover_counterexample :
    analyze_signals 50 rowsC2 = [] ∧
    detectThenFilter 50 rowsC2 = [⟨100, 1, "Buy", "", bullReason⟩] ∧
    analyze_signals 50 rowsC2 ≠ detectThenFilter 50 rowsC2 := by
  refine ⟨?_, ?_, ?_⟩
  · norm_num [analyze_signals, signalsOf, signalsAux, filterWindow, rowsC2,
      evalRow, rowReason, buy_condition, sell_condition, bullish_crossover,
      bearish_crossover, col, shift1, optLt, optGt, List.filter]
    exact ⟨by decide, by decide⟩
  · norm_num [detectThenFilter, signalsOf, signalsAux, rowsC2, evalRow,
      rowReason, buy_condition, sell_condition, bullish_crossover,
      bearish_crossover, col, shift1, optLt, optGt, List.filter, buyReason,
      bullReason]
  · intro hcontra
    have h1 : analyze_signals 50 rowsC2 = [] := by
      norm_num [analyze_signals, signalsOf, signalsAux, filterWindow, rowsC2,
        evalRow, rowReason, buy_condition, sell_condition, bullish_crossover,
        bearish_crossover, col, shift1, optLt, optGt, List.filter]
      exact ⟨by decide, by decide⟩
    have h2 : detectThenFilter 50 rowsC2 = [⟨100, 1, "Buy", "", bullReason⟩] := by
      norm_num [detectThenFilter, signalsOf, signalsAux, rowsC2, evalRow,
        rowReason, buy_condition, sell_condition, bullish_crossover,
        bearish_crossover, col, shift1, optLt, optGt, List.filter, buyReason,
        bullReason]
    rw [h1, h2] at hcontra
    exact List.noConfusion hcontra

/-- C3 (amended): between consecutive evaluated bars, the bullish
crossover fires exactly when SMA_20 was **strictly below** SMA_50 on
the preceding bar and is above it on the current bar, and the bearish
crossover fires exactly when SMA_20 was **strictly above** SMA_50 on
the preceding bar and is below it on the current bar — a transition
starting from exact equality fires neither. -/
theorem crossover_fires_iff_strict (rows : List Row) (j : ℕ) (p c : Row)
    (hp : rows[j]? = some p) (hc : rows[j + 1]? = some c) :
    (bullish_crossover rows (j + 1) = true ↔
      ∃ w x y z, p.SMA_20 = some w ∧ p.SMA_50 = some x ∧
        c.SMA_20 = some y ∧ c.SMA_50 = some z ∧ w < x ∧ z < y) ∧
    (bearish_crossover rows (j + 1) = true ↔
      ∃ w x y z, p.SMA_20 = some w ∧ p.SMA_50 = some x ∧
        c.SMA_20 = some y ∧ c.SMA_50 = some z ∧ x < w ∧ y < z) := by
  have h20 : shift1 (fun r => r.SMA_20) rows (j + 1) = p.SMA_20 := by
    simp [shift1, col, hp]
  have h50 : shift1 (fun r => r.SMA_50) rows (j + 1) = p.SMA_50 := by
    simp [shift1, col, hp]
  have hc20 : col (fun r => r.SMA_20) rows (j + 1) = c.SMA_20 := by
    simp [col, hc]
  have hc50 : col (fun r => r.SMA_50) rows (j + 1) = c.SMA_50 := by
    simp [col, hc]
  constructor
  · rw [bullish_crossover, h20, h50, hc20, hc50, optGt, Bool.and_eq_true,
      optLt_eq_true_iff, optLt_eq_true_iff]
    constructor
    · rintro ⟨⟨w, x, hw, hx, hwx⟩, ⟨z, y, hz, hy, hzy⟩⟩
      exact ⟨w, x, y, z, hw, hx, hy, hz, hwx, hzy⟩
    · rintro ⟨w, x, y, z, hw, hx, hy, hz, hwx, hzy⟩
      exact ⟨⟨w, x, hw, hx, hwx⟩, ⟨z, y, hz, hy, hzy⟩⟩
  · rw [bearish_crossover, h20, h50, hc20, hc50, optGt, Bool.and_eq_true,
      optLt_eq_true_iff, optLt_eq_true_iff]
    constructor
    · rintro ⟨⟨x, w, hx, hw, hxw⟩, ⟨y, z, hy, hz, hyz⟩⟩
      exact ⟨w, x, y, z, hw, hx, hy, hz, hxw, hyz⟩
    · rintro ⟨w, x, y, z, hw, hx, hy, hz, hxw, hyz⟩
      exact ⟨⟨x, w, hx, hw, hxw⟩, ⟨y, z, hy, hz, hyz⟩⟩

/-- Two bars with SMA_20 strictly below SMA_50, then strictly above. -/
def rowsStrict : List Row :=
  [⟨0, 1, some 1, some 2, none⟩, ⟨1, 1, some 3, some 2, none⟩]

/-- Witness for C3 (amended): on `rowsStrict` the hypotheses hold and
the bullish crossover fires at bar 1. -/
theorem crossover_fires_iff_strict_witness :
    bullish_crossover rowsStrict 1 = true := by
  refine ((crossover_fires_iff_strict rowsStrict 0
    ⟨0, 1, some 1, some 2, none⟩ ⟨1, 1, some 3, some 2, none⟩ rfl rfl).1).mpr ?_
  exact ⟨1, 2, 3, 2, rfl, rfl, rfl, rfl, by norm_num, by norm_num⟩

/-- Two bars with SMA_20 exactly equal to SMA_50, then strictly above. -/
def rowsEq : List Row :=
  [⟨0, 1, some 2, some 2, none⟩, ⟨1, 1, some 3, some 2, none⟩]

/-- Counterexample to C3 as stated: on `rowsEq` the preceding bar has
SMA_20 = SMA_50 (so SMA_20 ≤ SMA_50) and the current bar has SMA_20 >
SMA_50, yet the code's strict `shift(1) <` comparison does not fire the
bullish crossover. -/
theorem equality_transition_does_not_fire_counterexample :
    rowsEq[0]? = some ⟨0, 1, some 2, some 2, none⟩ ∧
    rowsEq[1]? = some ⟨1, 1, some 3, some 2, none⟩ ∧
    ((2 : ℚ) ≤ 2 ∧ (2 : ℚ) < 3) ∧
    bullish_crossover rowsEq 1 = false := by
  refine ⟨rfl, rfl, ⟨le_refl _, by norm_num⟩, ?_⟩
  norm_num [bullish_crossover, shift1, col, rowsEq, optLt, optGt]

/-- C6: a bar with any undefined (NaN) indicator involved in a rule's
condition is treated as non-firing for that rule — NaN comparisons are
False, so the rule's boolean condition evaluates to false; evaluation
is a total function and never raises. -/
theorem undefined_indicator_nonfiring (rows : List Row) (i : ℕ) (r : Row)
    (h : rows[i]? = some r) :
    (r.RSI_14 = none →
      buy_condition rows i = false ∧ sell_condition rows i = false) ∧
    (r.SMA_20 = none →
      buy_condition rows i = false ∧ sell_condition rows i = false ∧
      bullish_crossover rows i = false ∧ bearish_crossover rows i = false) ∧
    (r.SMA_50 = none →
      bullish_crossover rows i = false ∧ bearish_crossover rows i = false) ∧
    (shift1 (fun q => q.SMA_20) rows i = none →
      bullish_crossover rows i = false ∧ bearish_crossover rows i = false) ∧
    (shift1 (fun q => q.SMA_50) rows i = none →
      bullish_crossover rows i = false ∧ bearish_crossover rows i = false) := by
  have hc : ∀ get : Row → Option ℚ, col get rows i = get r := by
    intro get
    simp [col, h]
  refine ⟨fun h1 => ?_, fun h1 => ?_, fun h1 => ?_, fun h1 => ?_, fun h1 => ?_⟩
  · constructor
    · rw [buy_condition, hc, h1, optLt_none_left, Bool.false_and]
    · rw [sell_condition, hc, optGt, h1, optLt_none_right, Bool.false_and]
  · refine ⟨?_, ?_, ?_, ?_⟩
    · rw [buy_condition, hc (fun q => q.SMA_20), h1, optGt, optLt_none_left,
        Bool.and_false]
    · rw [sell_condition, hc (fun q => q.SMA_20), h1, optLt_none_right,
        Bool.and_false]
    · rw [bullish_crossover, hc (fun q => q.SMA_20), h1, optGt,
        optLt_none_right, Bool.and_false]
    · rw [bearish_crossover, hc (fun q => q.SMA_20), h1, optLt_none_left,
        Bool.and_false]
  · constructor
    · rw [bullish_crossover, hc (fun q => q.SMA_50), h1, optGt,
        optLt_none_left, Bool.and_false]
    · rw [bearish_crossover, hc (fun q => q.SMA_50), h1, optLt_none_right,
        Bool.and_false]
  · constructor
    · rw [bullish_crossover, h1, optLt_none_left, Bool.false_and]
    · rw [bearish_crossover, optGt, h1, optLt_none_right, Bool.false_and]
  · constructor
    · rw [bullish_crossover, h1, optLt_none_right, Bool.false_and]
    · rw [bearish_crossover, optGt, h1, optLt_none_left, Bool.false_and]

/-- A single bar with every indicator undefined. -/
def rowsNaN : List Row := [⟨0, 5, none, none, none⟩]

/-- Witness for C6: on a bar with undefined RSI_14 and SMA_20, the
buy rule and the bullish crossover do not fire. -/
theorem undefined_indicator_nonfiring_witness :
    buy_condition rowsNaN 0 = false ∧ bullish_crossover rowsNaN 0 = false :=
  ⟨((undefined_indicator_nonfiring rowsNaN 0 ⟨0, 5, none, none, none⟩ rfl).1 rfl).1,
   (((undefined_indicator_nonfiring rowsNaN 0 ⟨0, 5, none, none, none⟩
      rfl).2.1 rfl).2.2).1⟩

/-- C8 (amended): there is a single shared `Reason` cell per bar (not
one per action); the rules are evaluated in the order buy, sell,
bullish, bearish, and the reason of the last rule that fires overwrites
any earlier one, whether or not the earlier rule was for the other
action. -/
theorem reason_last_rule_wins (rows : List Row) (i : ℕ) :
    (bearish_crossover rows i = true → rowReason rows i = bearReason) ∧
    (bearish_crossover rows i = false → bullish_crossover rows i = true →
      rowReason rows i = bullReason) ∧
    (bearish_crossover rows i = false → bullish_crossover rows i = false →
      sell_condition rows i = true → rowReason rows i = sellReason) ∧
    (bearish_crossover rows i = false → bullish_crossover rows i = false →
      sell_condition rows i = false → buy_condition rows i = true →
      rowReason rows i = buyReason) := by
  refine ⟨fun h4 => ?_, fun h4 h3 => ?_, fun h4 h3 h2 => ?_,
    fun h4 h3 h2 h1 => ?_⟩
  · rw [rowReason, h4]
    simp
  · rw [rowReason, h4, h3]
    simp
  · rw [rowReason, h4, h3, h2]
    simp
  · rw [rowReason, h4, h3, h2, h1]
    simp

/-- Two bars on which the buy rule (rule 1, a Buy) and the bearish
crossover (rule 4, a Sell) both fire at bar 1: RSI 29 < 30 and close
100 above SMA_20 90; previous SMA_20 96 above previous SMA_50 95 while
current SMA_20 90 is below current SMA_50 95. -/
def rowsBoth : List Row :=
  [⟨0, 50, some 96, some 95, none⟩, ⟨1, 100, some 90, some 95, some 29⟩]

/-- Counterexample to C8 as stated: at bar 1 of `rowsBoth` a Buy rule
and a Sell rule both fire, yet the single `Reason` cell holds only the
bearish (Sell) reason — the Buy reason was overwritten across actions,
so the bar does not retain one reason per action. -/
theorem shared_reason_cell_counterexample :
    buy_condition rowsBoth 1 = true ∧
    bearish_crossover rowsBoth 1 = true ∧
    evalRow rowsBoth 1 ⟨1, 100, some 90, some 95, some 29⟩ =
      ⟨1, 100, "Buy", "Sell", bearReason⟩ ∧
    rowReason rowsBoth 1 ≠ buyReason := by
  have hbuy : buy_condition rowsBoth 1 = true := by
    norm_num [buy_condition, col, rowsBoth, optLt, optGt]
  have hsell : sell_condition rowsBoth 1 = false := by
    norm_num [sell_condition, col, rowsBoth, optLt, optGt]
  have hbull : bullish_crossover rowsBoth 1 = false := by
    norm_num [bullish_crossover, shift1, col, rowsBoth, optLt, optGt]
  have hbear : bearish_crossover rowsBoth 1 = true := by
    norm_num [bearish_crossover, shift1, col, rowsBoth, optLt, optGt]
  refine ⟨hbuy, hbear, ?_, ?_⟩
  · rw [evalRow, rowReason, hbuy, hsell, hbull, hbear]
    simp
  · rw [rowReason, hbear]
    decide

/-- Witness for C8 (amended): on `rowsBoth` at bar 1 the bearish rule
fires, and the recorded reason is the bearish one. -/
theorem reason_last_rule_wins_witness :
    rowReason rowsBoth 1 = bearReason :=
  (reason_last_rule_wins rowsBoth 1).1
    (by norm_num [bearish_crossover, shift1, col, rowsBoth, optLt, optGt])

/-- The worker produces one enriched row per input bar. -/
lemma addFeaturesAux_length (cs : List ℚ) :
    ∀ (k : ℕ) (l : List Bar), (addFeaturesAux cs k l).length = l.length
  | _, [] => rfl
  | k, b :: t => by
    rw [addFeaturesAux, List.length_cons, List.length_cons,
      addFeaturesAux_length cs (k + 1) t]

/-- The enriched row at index `i` is the input bar at index `i`,
enriched at absolute position `k + i`. -/
lemma addFeaturesAux_getElem? (cs : List ℚ) :
    ∀ (l : List Bar) (k i : ℕ),
      (addFeaturesAux cs k l)[i]? = (l[i]?).map (fun b => enrich cs (k + i) b)
  | [], k, i => by simp [addFeaturesAux]
  | b :: t, k, 0 => by simp [addFeaturesAux]
  | b :: t, k, i + 1 => by
    rw [addFeaturesAux]
    have hrec := addFeaturesAux_getElem? cs t (k + 1) i
    simp only [List.getElem?_cons_succ]
    rw [hrec]
    have harith : k + 1 + i = k + (i + 1) := by omega
    rw [harith]

/-- C4 (amended): the indicator engine performs no input validation at
all — on every input sequence, ill-formed or not, it returns one
enriched row per input bar and never signals any error (the code
defines no `DataIntegrityError` and raises nothing). -/
theorem add_features_never_fails (bars : List Bar) :
    (add_features bars).length = bars.length :=
  addFeaturesAux_length (closes bars) 0 bars

/-- Bars with out-of-order dates (5 then 3) and a negative close. -/
def badBars : List Bar := [⟨5, 1, 1, 1, -3, 10⟩, ⟨3, 1, 1, 1, 2, 10⟩]

/-- Counterexample to C4 as stated: `badBars` violates both invariants
(dates not strictly increasing, a negative price), yet the engine
emits a full-length output instead of failing with a
`DataIntegrityError`. -/
theorem no_data_integrity_error_counterexample :
    ¬ List.Chain' (fun a b => a.Date < b.Date) badBars ∧
    (∃ b ∈ badBars, b.Close < 0) ∧
    (add_features badBars).length = badBars.length ∧
    (add_features badBars).length = 2 := by
  refine ⟨?_, ?_, ?_, ?_⟩
  · intro hcontra
    simp only [badBars, List.chain'_cons] at hcontra
    have h53 : (5 : Int) < 3 := hcontra.1
    omega
  · exact ⟨⟨5, 1, 1, 1, -3, 10⟩, List.mem_cons_self _ _, by norm_num⟩
  · exact addFeaturesAux_length (closes badBars) 0 badBars
  · show (addFeaturesAux (closes badBars) 0 badBars).length = 2
    rw [addFeaturesAux_length (closes badBars) 0 badBars]
    rfl

/-- C10: on every input of strictly increasing dates and length ≥ 1,
the engine produces an output of equal length and matching order,
one-to-one with the input, each output row carrying the unchanged
date, open, high, low, close and volume of its input bar. -/
theorem add_features_one_to_one (bars : List Bar)
    (hord : List.Chain' (fun a b => a.Date < b.Date) bars)
    (hlen : 1 ≤ bars.length) :
    (add_features bars).length = bars.length ∧
    ∀ (i : ℕ) (a : Bar), bars[i]? = some a →
      ∃ e : EnrichedBar, (add_features bars)[i]? = some e ∧
        e.Date = a.Date ∧ e.Open = a.Open ∧ e.High = a.High ∧
        e.Low = a.Low ∧ e.Close = a.Close ∧ e.Volume = a.Volume := by
  refine ⟨addFeaturesAux_length (closes bars) 0 bars, ?_⟩
  intro i a ha
  refine ⟨enrich (closes bars) i a, ?_, rfl, rfl, rfl, rfl, rfl, rfl⟩
  show (addFeaturesAux (closes bars) 0 bars)[i]? = some (enrich (closes bars) i a)
  rw [addFeaturesAux_getElem? (closes bars) bars 0 i, ha]
  simp [Nat.zero_add]

/-- Two well-formed bars for the C10 witness. -/
def goodBars : List Bar := [⟨1, 10, 11, 9, 10, 5⟩, ⟨2, 10, 12, 10, 11, 6⟩]

/-- Witness for C10: on `goodBars` (strictly increasing dates, length
2) the hypotheses hold; the output has the input's length and the first
output row carries the first bar's close unchanged. -/
theorem add_features_one_to_one_witness :
    (add_features goodBars).length = goodBars.length ∧
    ∃ e, (add_features goodBars)[0]? = some e ∧ e.Close = 10 := by
  have hord : List.Chain' (fun a b => a.Date < b.Date) goodBars := by
    rw [goodBars, List.chain'_cons]
    exact ⟨by norm_num, List.chain'_singleton _⟩
  have h := add_features_one_to_one goodBars hord (by norm_num [goodBars])
  refine ⟨h.1, ?_⟩
  obtain ⟨e, he, _, _, _, _, hclose, _⟩ :=
    h.2 0 ⟨1, 10, 11, 9, 10, 5⟩ rfl
  exact ⟨e, he, by rw [hclose]⟩
